import Mathlib

/-!
Shallow embedding of the `bluegreen` Django migration-splitting subsystem
(`src/bluegreen/`): operation strategies, the operation splitter, the SQL
builder, the schema validator, the migration processor's dependency
rewriting, and the migration plan filter. Definitions follow the Python
source; theorems check the natural-language specification against them.
-/

deriving instance DecidableEq for Except

namespace BlueGreen

/-- Python `str.startswith`, computed structurally over the characters. -/
def strStartsWith (s pat : String) : Bool :=
  List.isPrefixOf pat.data s.data

/-- Python `str.endswith`, computed structurally over the characters. -/
def strEndsWith (s pat : String) : Bool :=
  List.isSuffixOf pat.data s.data

/-- Python `str.lower`, computed structurally over the characters. -/
def strToLower (s : String) : String :=
  String.mk (s.data.map Char.toLower)

/-- Python `sep.join(parts)`, computed structurally. -/
def joinSep (sep : String) : List String → String
  | [] => ""
  | [x] => x
  | x :: xs => x ++ sep ++ joinSep sep xs

/-- A Django model field, as seen by the splitting code: its attribute
name (`field.name`) and database column (`field.column`). -/
structure DjangoField where
  name : String
  column : String
deriving Repr, DecidableEq

/-- The slice of a Django model class used by the splitting code:
`__name__`, `_meta.app_label`, `_meta.db_table`, `_meta.fields` in
declaration order, and the names of `_meta.indexes`. -/
structure DjangoModel where
  name : String
  appLabel : String
  dbTable : String
  fields : List DjangoField
  indexes : List String
deriving Repr, DecidableEq

/-- The app registry (`django.apps.apps`): app label to that app's models. -/
abbrev Apps : Type := List (String × List DjangoModel)

/-- Migration operations, one constructor per concrete Django operation
class used by the code.  The `alter*` constructors are the members of
`IMPOSSIBLE_OPERATIONS`; `createModelPatched`, `addFieldPatched` and
`addIndexPatched` embed the subclasses from `bluegreen/fields.py`, which
carry the old name as metadata.  `runSQL` holds the sql text and the
reverse sql (Django's `RunSQL.noop` is the empty string). -/
inductive Operation where
  | createModel (name : String) (fields : List DjangoField)
  | deleteModel (name : String)
  | renameModel (oldName newName : String)
  | addField (modelName name : String)
  | removeField (modelName name : String)
  | renameField (modelName oldName newName : String)
  | addIndex (modelName indexName : String)
  | removeIndex (modelName name : String)
  | renameIndex (modelName oldName newName : String)
  | addConstraint (modelName name : String)
  | removeConstraint (modelName name : String)
  | alterModelTable (name : String)
  | alterUniqueTogether (name : String)
  | alterIndexTogether (name : String)
  | alterModelOptions (name : String)
  | alterField (modelName name : String)
  | alterOrderWithRespectTo (name : String)
  | alterModelManagers (name : String)
  | runSQL (sql : String) (reverseSql : String)
  | createModelPatched (name : String) (fields : List DjangoField) (oldName : String)
  | addFieldPatched (modelName name oldName : String) (field : DjangoField)
      (preserveDefault : Bool)
  | addIndexPatched (modelName indexName oldName : String)
deriving Repr, DecidableEq

/-- The error kinds from `bluegreen/exceptions.py` that the embedded code
can raise. -/
inductive BGError where
  | modelNotFound (model app : String)
  | fieldNotFound (field model : String)
  | indexNotFound (index model : String)
  | impossibleOperation (operations : List Operation)
  | schemaValidation (msg : String)
deriving Repr, DecidableEq

/-- Embeds `type(operation) in IMPOSSIBLE_OPERATIONS` (`constants.py`): exact-type
membership, so the patched subclasses are not members. -/
def isImpossible : Operation → Bool
  | .alterModelTable _ => true
  | .alterUniqueTogether _ => true
  | .alterIndexTogether _ => true
  | .alterModelOptions _ => true
  | .alterField _ _ => true
  | .alterOrderWithRespectTo _ => true
  | .alterModelManagers _ => true
  | _ => false

/-- Embeds `isinstance(op, CreateModel)`: `CreateModelPatched` subclasses `CreateModel`. -/
def isCreateModel : Operation → Bool
  | .createModel _ _ => true
  | .createModelPatched _ _ _ => true
  | _ => false

/-- Embeds `isinstance(op, DeleteModel)`. -/
def isDeleteModel : Operation → Bool
  | .deleteModel _ => true
  | _ => false

/-- Embeds `isinstance(op, RenameModel)`. -/
def isRenameModel : Operation → Bool
  | .renameModel _ _ => true
  | _ => false

/-- Embeds `isinstance(op, AddField)`: `AddFieldPatched` subclasses `AddField`. -/
def isAddField : Operation → Bool
  | .addField _ _ => true
  | .addFieldPatched _ _ _ _ _ => true
  | _ => false

/-- Embeds `isinstance(op, RemoveField)`. -/
def isRemoveField : Operation → Bool
  | .removeField _ _ => true
  | _ => false

/-- Embeds `isinstance(op, RenameField)`. -/
def isRenameField : Operation → Bool
  | .renameField _ _ _ => true
  | _ => false

/-- Embeds `isinstance(op, AddIndex)`: `AddIndexPatched` subclasses `AddIndex`. -/
def isAddIndex : Operation → Bool
  | .addIndex _ _ => true
  | .addIndexPatched _ _ _ => true
  | _ => false

/-- Embeds `isinstance(op, RemoveIndex)`. -/
def isRemoveIndex : Operation → Bool
  | .removeIndex _ _ => true
  | _ => false

/-- Embeds `isinstance(op, RenameIndex)`. -/
def isRenameIndex : Operation → Bool
  | .renameIndex _ _ _ => true
  | _ => false

/-- Embeds `isinstance(op, AddConstraint)`. -/
def isAddConstraint : Operation → Bool
  | .addConstraint _ _ => true
  | _ => false

/-- Embeds `isinstance(op, RemoveConstraint)`. -/
def isRemoveConstraint : Operation → Bool
  | .removeConstraint _ _ => true
  | _ => false

/-- Embeds `utils.get_model_safely`: `apps.get_app_config(app_label).get_model(model_name)`,
raising `ModelNotFoundError` on `LookupError`.  Django's `get_model`
looks the model up by lower-cased name. -/
def get_model_safely (apps : Apps) (app_label model_name : String) :
    Except BGError DjangoModel :=
  match List.find? (fun p => p.1 == app_label) apps with
  | none => .error (.modelNotFound model_name app_label)
  | some p =>
    match List.find? (fun m => strToLower m.name == strToLower model_name) p.2 with
    | none => .error (.modelNotFound model_name app_label)
    | some m => .ok m

/-- Embeds `utils.get_field_by_name`: first field of `model._meta.fields` with the
given attribute name, else `FieldNotFoundError`. -/
def get_field_by_name (model : DjangoModel) (field_name : String) :
    Except BGError DjangoField :=
  match List.find? (fun f => f.name == field_name) model.fields with
  | none => .error (.fieldNotFound field_name model.name)
  | some f => .ok f

/-- Embeds `utils.get_index_by_name`: first index of `model._meta.indexes` with the
given name, else `IndexNotFoundError`. -/
def get_index_by_name (model : DjangoModel) (index_name : String) :
    Except BGError String :=
  match List.find? (fun idx => idx == index_name) model.indexes with
  | none => .error (.indexNotFound index_name model.name)
  | some idx => .ok idx

/-- Embeds `utils.quote_identifier`: wraps `connection.ops.quote_name`; the
PostgreSQL backend returns the name unchanged when it is already
double-quoted and otherwise wraps it in double quotes. -/
def quote_identifier (identifier : String) : String :=
  if strStartsWith identifier "\"" && strEndsWith identifier "\"" then identifier
  else "\"" ++ identifier ++ "\""

/-- Embeds `SQLBuilder.build_insert_select`: quotes both tables and every column and
produces `INSERT INTO <source> (<cols>) SELECT <cols> FROM <target>` as a
`RunSQL` with reverse sql defaulting to `RunSQL.noop` (the empty string). -/
def build_insert_select (source_table target_table : String)
    (columns : List String) (reverse_sql : Option String) : Operation :=
  let source_quoted := quote_identifier source_table
  let target_quoted := quote_identifier target_table
  let columns_list := joinSep ", " (columns.map quote_identifier)
  Operation.runSQL
    ("INSERT INTO " ++ source_quoted ++ " (" ++ columns_list ++ ") " ++
      "SELECT " ++ columns_list ++ " FROM " ++ target_quoted)
    (reverse_sql.getD "")

/-- Embeds `SQLBuilder.build_update_field_copy`: produces
`UPDATE <table> SET <new_column> = <old_column>` with the optional raw
`WHERE` clause appended when truthy. -/
def build_update_field_copy (table new_column old_column : String)
    (where_clause : Option String) (reverse_sql : Option String) : Operation :=
  let sql := "UPDATE " ++ quote_identifier table ++ " SET " ++
    quote_identifier new_column ++ " = " ++ quote_identifier old_column
  let sql :=
    match where_clause with
    | some w => if w == "" then sql else sql ++ " WHERE " ++ w
    | none => sql
  Operation.runSQL sql (reverse_sql.getD "")

/-- Embeds `SQLBuilder.build_column_list_from_model`: the models' columns in field
declaration order. -/
def build_column_list_from_model (model : DjangoModel) : List String :=
  model.fields.map (fun f => f.column)

/-- The result type of one strategy `split`: a blue tuple and a green tuple
whose elements are operations or `None` placeholders. -/
abbrev SplitPair : Type := List (Option Operation) × List (Option Operation)

/-- Embeds `ModelStrategy.split` (`strategies.py`): create goes to blue, delete to
green; a rename resolves the new model, builds a patched create carrying
the old name, a `DeleteModel` of the old name, and the `INSERT ... SELECT`
copy over the new model's columns. -/
def modelStrategySplit (apps : Apps) (app_label : String) (op : Operation) :
    Except BGError SplitPair :=
  if isCreateModel op then .ok ([some op], [none])
  else if isDeleteModel op then .ok ([none], [some op])
  else
    match op with
    | .renameModel oldName newName => do
      let model ← get_model_safely apps app_label newName
      let add_operation := Operation.createModelPatched model.name model.fields oldName
      let drop_operation := Operation.deleteModel oldName
      let old_table := model.appLabel ++ "_" ++ strToLower oldName
      let columns := build_column_list_from_model model
      let run_sql := build_insert_select old_table model.dbTable columns none
      return ([some add_operation, some run_sql], [some drop_operation])
    | _ => .ok ([some op], [none])

/-- Embeds `FieldStrategy.split`: add goes to blue, remove to green; a rename
resolves the model and the new field, builds a patched add carrying the
old name, a `RemoveField` of the old name, and the `UPDATE` column copy. -/
def fieldStrategySplit (apps : Apps) (app_label : String) (op : Operation) :
    Except BGError SplitPair :=
  if isAddField op then .ok ([some op], [none])
  else if isRemoveField op then .ok ([none], [some op])
  else
    match op with
    | .renameField modelName oldName newName => do
      let model ← get_model_safely apps app_label modelName
      let field ← get_field_by_name model newName
      let add_operation :=
        Operation.addFieldPatched (strToLower model.name) newName oldName field true
      let drop_operation := Operation.removeField (strToLower model.name) oldName
      let run_sql := build_update_field_copy model.dbTable newName oldName none none
      return ([some add_operation, some run_sql], [some drop_operation])
    | _ => .ok ([some op], [none])

/-- Embeds `IndexStrategy.split`: add goes to blue, remove to green; a rename
resolves the model and the new index and builds a patched add plus a
`RemoveIndex` of the old name (no data-copy sql). -/
def indexStrategySplit (apps : Apps) (app_label : String) (op : Operation) :
    Except BGError SplitPair :=
  if isAddIndex op then .ok ([some op], [none])
  else if isRemoveIndex op then .ok ([none], [some op])
  else
    match op with
    | .renameIndex modelName oldName newName => do
      let model ← get_model_safely apps app_label modelName
      let index ← get_index_by_name model newName
      let add_operation := Operation.addIndexPatched (strToLower model.name) index oldName
      let drop_operation := Operation.removeIndex (strToLower model.name) oldName
      return ([some add_operation], [some drop_operation])
    | _ => .ok ([some op], [none])

/-- Embeds `ConstraintStrategy.split`: add goes to blue, remove to green. -/
def constraintStrategySplit (op : Operation) : Except BGError SplitPair :=
  if isAddConstraint op then .ok ([some op], [none])
  else if isRemoveConstraint op then .ok ([none], [some op])
  else .ok ([some op], [none])

/-- Embeds `ModelStrategy.can_handle`. -/
def modelCanHandle (op : Operation) : Bool :=
  isCreateModel op || isDeleteModel op || isRenameModel op

/-- Embeds `FieldStrategy.can_handle`. -/
def fieldCanHandle (op : Operation) : Bool :=
  isAddField op || isRemoveField op || isRenameField op

/-- Embeds `IndexStrategy.can_handle`. -/
def indexCanHandle (op : Operation) : Bool :=
  isAddIndex op || isRemoveIndex op || isRenameIndex op

/-- Embeds `ConstraintStrategy.can_handle`. -/
def constraintCanHandle (op : Operation) : Bool :=
  isAddConstraint op || isRemoveConstraint op

/-- Embeds `OperationSplitter.split_operation`: impossible kinds are returned as-is
as `((op,), (None,))`; otherwise the first strategy whose `can_handle`
matches (registration order Model, Field, Index, Constraint) splits the
operation; unrecognized kinds default to blue. -/
def split_operation (apps : Apps) (app_label : String) (op : Operation) :
    Except BGError SplitPair :=
  if isImpossible op then .ok ([some op], [none])
  else if modelCanHandle op then modelStrategySplit apps app_label op
  else if fieldCanHandle op then fieldStrategySplit apps app_label op
  else if indexCanHandle op then indexStrategySplit apps app_label op
  else if constraintCanHandle op then constraintStrategySplit op
  else .ok ([some op], [none])

/-- Embeds `OperationSplitter.split_operations`: splits each operation in order and
extends the blue and green accumulators with the non-`None` elements. -/
def split_operations (apps : Apps) (app_label : String) :
    List Operation → Except BGError (List Operation × List Operation)
  | [] => .ok ([], [])
  | op :: rest => do
    let pair ← split_operation apps app_label op
    let restPair ← split_operations apps app_label rest
    return (pair.1.filterMap id ++ restPair.1, pair.2.filterMap id ++ restPair.2)

/-- Embeds `OperationSplitter.detect_impossible_operations`: the sublist of
operations whose exact type is in `IMPOSSIBLE_OPERATIONS`. -/
def detect_impossible_operations (operations : List Operation) : List Operation :=
  operations.filter isImpossible

/-- Lexicographic comparison of character lists by code point (Python `<`
on `str`). -/
def lexLt : List Char → List Char → Bool
  | [], [] => false
  | [], _ :: _ => true
  | _ :: _, [] => false
  | a :: as, b :: bs =>
    if a.toNat < b.toNat then true
    else if b.toNat < a.toNat then false
    else lexLt as bs

/-- Python `<` on strings. -/
def strLt (a b : String) : Bool :=
  lexLt a.data b.data

/-- Ascending insertion into a sorted list of strings (Python `sorted`). -/
def insertSorted (s : String) : List String → List String
  | [] => [s]
  | x :: xs => if strLt s x then s :: x :: xs else x :: insertSorted s xs

/-- Lexicographic ascending sort of a list of strings (Python `sorted`). -/
def sortStrings (l : List String) : List String :=
  l.foldr insertSorted []

/-- Duplicate removal keeping first occurrences (Python `set` built from a
list, before sorting). -/
def dedupStr : List String → List String
  | [] => []
  | x :: xs => x :: (dedupStr xs).filter (fun y => !(y == x))

/-- Embeds `SQLValidator.get_common_columns`: the sorted intersection of the two
models' column-name sets. -/
def get_common_columns (model_from model_to : DjangoModel) : List String :=
  let columns_from := dedupStr (model_from.fields.map (fun f => f.column))
  let columns_to := model_to.fields.map (fun f => f.column)
  sortStrings (columns_from.filter (fun c => columns_to.contains c))

/-- Embeds `SQLValidator.check_safe_for_insert_select`: raises
`SchemaValidationError` when the two models share no columns; otherwise
succeeds (the second `len(common) < 1` branch is unreachable). -/
def check_safe_for_insert_select (source_model target_model : DjangoModel) :
    Except BGError Unit :=
  let common := get_common_columns source_model target_model
  if common.isEmpty then
    .error (.schemaValidation
      ("No common columns between " ++ source_model.name ++ " and " ++
        target_model.name))
  else if common.length < 1 then
    .error (.schemaValidation
      ("Insufficient common columns between " ++ source_model.name ++ " and " ++
        target_model.name ++ ": " ++ toString common.length))
  else .ok ()

/-- A migration dependency: a `(app_label, migration_name)` 2-tuple, or any
other value (e.g. a swappable tuple), which the rewriter passes through. -/
inductive Dep where
  | ref (appLabel migrationName : String)
  | other (tag : String)
deriving Repr, DecidableEq

/-- The slice of a Django `Migration` object handled by the processor. -/
structure Migration where
  name : String
  appLabel : String
  operations : List Operation
  dependencies : List Dep
  replaces : List (String × String)
  runBefore : List (String × String)
  initial : Bool
deriving Repr, DecidableEq

/-- The two read-only sources of truth consulted by dependency rewriting:
the loaded migration graph's nodes and the migration files on disk, both
keyed by `(app_label, migration_name)`. -/
structure MigrationEnv where
  graphNodes : List (String × String)
  diskFiles : List (String × String)
deriving Repr, DecidableEq

/-- Embeds `constants.BLUE_SUFFIX`. -/
def BLUE_SUFFIX : String := "_blue"

/-- Embeds `constants.GREEN_SUFFIX`. -/
def GREEN_SUFFIX : String := "_green"

/-- The `target_suffix` chosen in `_fix_dependencies`. -/
def target_suffix (is_green : Bool) : String :=
  if is_green then GREEN_SUFFIX else BLUE_SUFFIX

/-- Embeds `BlueGreenMigrationProcessor._migration_file_exists`. -/
def migration_file_exists (env : MigrationEnv) (app_label migration_name : String) :
    Bool :=
  env.diskFiles.contains (app_label, migration_name)

/-- The per-dependency body of `_fix_dependencies`: suffixed names pass
through; otherwise the name is rewritten to `name + target_suffix` when
that candidate is in the graph or on disk, and kept otherwise; non-tuple
dependencies pass through. -/
def fix_dependency (env : MigrationEnv) (is_green : Bool) : Dep → Dep
  | .ref app_label migration_name =>
    if strEndsWith migration_name BLUE_SUFFIX || strEndsWith migration_name GREEN_SUFFIX then
      .ref app_label migration_name
    else
      let target_name := migration_name ++ target_suffix is_green
      if env.graphNodes.contains (app_label, target_name) ||
          migration_file_exists env app_label target_name then
        .ref app_label target_name
      else
        .ref app_label migration_name
  | .other tag => .other tag

/-- Embeds `BlueGreenMigrationProcessor._fix_dependencies`: the per-element rewrite
applied to every dependency in order (`current_app_label` is unused in the
source's body as well). -/
def fix_dependencies (env : MigrationEnv) (dependencies : List Dep)
    (current_app_label : String) (is_green : Bool) : List Dep :=
  dependencies.map (fix_dependency env is_green)

/-- Embeds `BlueGreenMigrationProcessor.process_migration`: fails with
`ImpossibleOperationError` carrying the offending operations when any
operation's kind is impossible; otherwise builds the blue migration
(suffixed name, rewritten dependencies, blue operations, copied flags) and
the green migration (suffixed name, the single dependency on its blue
counterpart, green operations, copied flags). -/
def process_migration (apps : Apps) (env : MigrationEnv) (m : Migration) :
    Except BGError (Migration × Migration) :=
  if m.operations.any isImpossible then
    .error (.impossibleOperation (detect_impossible_operations m.operations))
  else do
    let pair ← split_operations apps m.appLabel m.operations
    let blue := Migration.mk (m.name ++ BLUE_SUFFIX) m.appLabel pair.1
      (fix_dependencies env m.dependencies m.appLabel false)
      m.replaces m.runBefore m.initial
    let green := Migration.mk (m.name ++ GREEN_SUFFIX) m.appLabel pair.2
      [Dep.ref blue.appLabel blue.name] m.replaces m.runBefore m.initial
    return (blue, green)

/-- One item of an execution plan: `(migration, backwards)`; the filter only
reads `item[0].name`. -/
structure PlanItem where
  migrationName : String
  backwards : Bool
deriving Repr, DecidableEq

/-- Embeds `MigrationPlanFilter.filter_plan`: blue mode drops items whose name ends
with `"_green"`, green mode drops items whose name ends with `"_blue"`,
otherwise the plan is returned unchanged. -/
def filter_plan (blue_mode green_mode : Bool) (plan : List PlanItem) :
    List PlanItem :=
  if blue_mode then
    plan.filter (fun item => !(strEndsWith item.migrationName "_green"))
  else if green_mode then
    plan.filter (fun item => !(strEndsWith item.migrationName "_blue"))
  else plan

/-- The sql text of a `RunSQL` operation (empty for other operations). -/
def sqlOf : Operation → String
  | .runSQL sql _ => sql
  | _ => ""

/-- Split a character list on the double-quote character: the even-indexed
chunks are the text outside quoting delimiters, the odd-indexed chunks the
text inside them. -/
def splitQ : List Char → List (List Char)
  | [] => [[]]
  | c :: cs =>
    if c = '"' then [] :: splitQ cs
    else
      match splitQ cs with
      | [] => [[c]]
      | r :: rs => (c :: r) :: rs

/-- Holds when the string contains no double-quote character. -/
def quoteFree (s : List Char) : Bool :=
  s.all (fun c => !(c == '"'))

/-- Checks (as `onlyQuotedOcc ident prev s`) that every occurrence of `ident` in
`s` is immediately preceded by a double quote (`prev` is the character just
before `s`) and immediately followed by one: the identifier text never
appears as a bare un-quoted substring. -/
def onlyQuotedOcc (ident : List Char) : Char → List Char → Bool
  | _, [] => true
  | prev, c :: cs =>
    ((!List.isPrefixOf ident (c :: cs)) ||
      (prev == '"' &&
        (match List.drop ident.length (c :: cs) with
         | [] => false
         | d :: _ => d == '"'))) &&
    onlyQuotedOcc ident c cs

/-- The quote-chunk decomposition that the specification promises for
`build_insert_select`: fixed template text outside the quotes, the raw
identifiers inside them (`afterLast` closes the column list). -/
def altCols (afterLast : List Char) : List (List Char) → List (List Char)
  | [] => [afterLast]
  | [c] => [c, afterLast]
  | c :: cs => c :: (", ".data) :: altCols afterLast cs

/-- The expected quote-chunk list of `build_insert_select source target cols`
for quote-free identifiers. -/
def expectedInsertChunks (s t : List Char) (cols : List (List Char)) :
    List (List Char) :=
  "INSERT INTO ".data :: s :: " (".data ::
    (altCols ") SELECT ".data cols ++ (altCols " FROM ".data cols ++ [t, []]))

/-- The expected quote-chunk list of `build_update_field_copy` (no `WHERE`). -/
def expectedUpdateChunks (tb nc oc : List Char) : List (List Char) :=
  ["UPDATE ".data, tb, " SET ".data, nc, " = ".data, oc, []]

/-- The fixed template chunks of the two builders: the text outside quoting
delimiters is always one of these, independent of the identifiers. -/
def fixedSqlChunks : List (List Char) :=
  ["INSERT INTO ".data, " (".data, ", ".data, ") SELECT ".data, " FROM ".data,
    "UPDATE ".data, " SET ".data, " = ".data, []]

/-- Rebuild a text from its quote-chunk decomposition: the chunks joined by
single double-quote characters (the inverse of `splitQ` on quote-free
chunks). -/
def joinChunks : List (List Char) → List Char
  | [] => []
  | [c] => c
  | c :: cs => c ++ '"' :: joinChunks cs

/-- The text of a quoted, comma-separated column list with its outer quotes
stripped: `innerJoin [a, b] = a ++ "\x22, \x22" ++ b`. -/
def innerJoin : List (List Char) → List Char
  | [] => []
  | [d] => d
  | d :: ds => d ++ '"' :: ", ".data ++ '"' :: innerJoin ds

/-- Concrete fixture: the renamed-to model of a `RenameModel` example. -/
def clientModel : DjangoModel :=
  DjangoModel.mk "Client" "shop" "shop_client" [DjangoField.mk "id" "id"] []

/-- Concrete fixture: an app registry holding only `clientModel`. -/
def shopApps : Apps := [("shop", [clientModel])]

/-- Concrete fixture: the old model of a rename whose columns are disjoint
from `disjointClient`'s. -/
def customerModel : DjangoModel :=
  DjangoModel.mk "Customer" "shop" "shop_customer" [DjangoField.mk "a" "a"] []

/-- Concrete fixture: a renamed-to model sharing no column with
`customerModel`. -/
def disjointClient : DjangoModel :=
  DjangoModel.mk "Client" "shop" "shop_client" [DjangoField.mk "b" "b"] []

/-- Concrete fixture: registry where the rename target shares no column with
the old model. -/
def disjointApps : Apps := [("shop", [customerModel, disjointClient])]

/-- Concrete fixture: a model with a renamed-to field and index, for the
field/index rename witnesses. -/
def userModel : DjangoModel :=
  DjangoModel.mk "User" "crm" "crm_user"
    [DjangoField.mk "id" "id", DjangoField.mk "email_new" "email_new"]
    ["idx_new"]

/-- Concrete fixture: registry holding `userModel`. -/
def crmApps : Apps := [("crm", [userModel])]

/-- Concrete fixture: a rewriting environment where
`("appX", "0005_foo_blue")` exists on disk but not in the graph. -/
def envEx : MigrationEnv :=
  MigrationEnv.mk [] [("appX", "0005_foo_blue")]

/-- Concrete fixture: the blue item of the spec's plan-filtering example. -/
def planBlueA : PlanItem := PlanItem.mk "0007_a_blue" false

/-- Concrete fixture: the green item of the spec's plan-filtering example. -/
def planGreenA : PlanItem := PlanItem.mk "0007_a_green" false

/-- Concrete fixture: the vanilla item of the spec's plan-filtering example. -/
def planVanillaB : PlanItem := PlanItem.mk "0003_b" false

/-- Shows `split_operation` returns an impossible-kind operation as-is: a
single-element blue tuple and a `None` green placeholder. -/
theorem split_op_impossible (apps : Apps) (app : String) (op : Operation)
    (h : isImpossible op = true) :
    split_operation apps app op = .ok ([some op], [none]) := by
  simp [split_operation, h]

/-- One unfolding step of `split_operations`. -/
theorem split_ops_cons_eq (apps : Apps) (app : String) (o : Operation)
    (rest : List Operation) (bs gs : List (Option Operation))
    (B' G' : List Operation)
    (h1 : split_operation apps app o = .ok (bs, gs))
    (h2 : split_operations apps app rest = .ok (B', G')) :
    split_operations apps app (o :: rest) =
      .ok (bs.filterMap id ++ B', gs.filterMap id ++ G') := by
  rw [show split_operations apps app (o :: rest) =
      Except.bind (split_operation apps app o) (fun pair =>
        Except.bind (split_operations apps app rest) (fun restPair =>
          Except.ok (pair.1.filterMap id ++ restPair.1,
            pair.2.filterMap id ++ restPair.2))) from rfl]
  rw [h1, h2]
  rfl

/-- Inversion of one `split_operations` step. -/
theorem split_ops_cons_inv (apps : Apps) (app : String) (o : Operation)
    (rest : List Operation) (B G : List Operation)
    (h : split_operations apps app (o :: rest) = .ok (B, G)) :
    ∃ bs gs B' G', split_operation apps app o = .ok (bs, gs) ∧
      split_operations apps app rest = .ok (B', G') ∧
      B = bs.filterMap id ++ B' ∧ G = gs.filterMap id ++ G' := by
  rw [show split_operations apps app (o :: rest) =
      Except.bind (split_operation apps app o) (fun pair =>
        Except.bind (split_operations apps app rest) (fun restPair =>
          Except.ok (pair.1.filterMap id ++ restPair.1,
            pair.2.filterMap id ++ restPair.2))) from rfl] at h
  cases ho : split_operation apps app o with
  | error e => rw [ho] at h; simp [Except.bind] at h
  | ok pair =>
    rw [ho] at h
    cases hr : split_operations apps app rest with
    | error e => rw [hr] at h; simp [Except.bind] at h
    | ok restPair =>
      rw [hr] at h
      simp only [Except.bind, Except.ok.injEq, Prod.mk.injEq] at h
      exact ⟨pair.1, pair.2, restPair.1, restPair.2, rfl, rfl, h.1.symm, h.2.symm⟩

/-- C3: create-model, add-field, add-index and add-constraint instructions
split into `(instruction, nothing)`, and delete-model, remove-field,
remove-index and remove-constraint instructions split into
`(nothing, instruction)`. -/
theorem C3_additive_blue_destructive_green (apps : Apps) (app : String) :
    (∀ n fs, split_operation apps app (.createModel n fs) =
      .ok ([some (.createModel n fs)], [none])) ∧
    (∀ mn n, split_operation apps app (.addField mn n) =
      .ok ([some (.addField mn n)], [none])) ∧
    (∀ mn n, split_operation apps app (.addIndex mn n) =
      .ok ([some (.addIndex mn n)], [none])) ∧
    (∀ mn n, split_operation apps app (.addConstraint mn n) =
      .ok ([some (.addConstraint mn n)], [none])) ∧
    (∀ n, split_operation apps app (.deleteModel n) =
      .ok ([none], [some (.deleteModel n)])) ∧
    (∀ mn n, split_operation apps app (.removeField mn n) =
      .ok ([none], [some (.removeField mn n)])) ∧
    (∀ mn n, split_operation apps app (.removeIndex mn n) =
      .ok ([none], [some (.removeIndex mn n)])) ∧
    (∀ mn n, split_operation apps app (.removeConstraint mn n) =
      .ok ([none], [some (.removeConstraint mn n)])) :=
  ⟨fun _ _ => rfl, fun _ _ => rfl, fun _ _ => rfl, fun _ _ => rfl,
    fun _ => rfl, fun _ _ => rfl, fun _ _ => rfl, fun _ _ => rfl⟩

/-- C5: a migration containing an impossible-kind instruction makes
`process_migration` fail with the impossible-operation error carrying the
offending instructions; no blue/green pair is constructed. -/
theorem C5_impossible_is_fatal (apps : Apps) (env : MigrationEnv)
    (m : Migration) (h : ∃ op ∈ m.operations, isImpossible op = true) :
    process_migration apps env m =
      .error (.impossibleOperation (detect_impossible_operations m.operations)) := by
  have hany : m.operations.any isImpossible = true := by
    obtain ⟨op, hmem, himp⟩ := h
    exact List.any_eq_true.mpr ⟨op, hmem, himp⟩
  simp [process_migration, hany]

/-- Witness for C5 at a one-instruction migration holding an `AlterField`. -/
theorem C5_impossible_is_fatal_witness :
    process_migration shopApps envEx
      (Migration.mk "0001_x" "shop" [.alterField "client" "id"] [] [] [] false) =
      .error (.impossibleOperation [.alterField "client" "id"]) :=
  C5_impossible_is_fatal shopApps envEx
    (Migration.mk "0001_x" "shop" [.alterField "client" "id"] [] [] [] false)
    ⟨.alterField "client" "id", by decide, rfl⟩

/-- C7: blue-mode filtering keeps exactly the plan items whose name does not
end in the green suffix, green mode those not ending in the blue suffix,
unrestricted mode is the identity; evaluated on the spec's example plan. -/
theorem C7_plan_filter_modes :
    (∀ plan : List PlanItem, filter_plan true false plan =
      plan.filter (fun item => !(strEndsWith item.migrationName "_green"))) ∧
    (∀ plan : List PlanItem, filter_plan false true plan =
      plan.filter (fun item => !(strEndsWith item.migrationName "_blue"))) ∧
    (∀ plan : List PlanItem, filter_plan false false plan = plan) ∧
    filter_plan true false [planBlueA, planGreenA, planVanillaB] =
      [planBlueA, planVanillaB] ∧
    filter_plan false true [planBlueA, planGreenA, planVanillaB] =
      [planGreenA, planVanillaB] ∧
    filter_plan false false [planBlueA, planGreenA, planVanillaB] =
      [planBlueA, planGreenA, planVanillaB] :=
  ⟨fun _ => rfl, fun _ => rfl, fun _ => rfl, by decide, by decide, by decide⟩

/-- C10: `split_operations` never fails on impossible-kind instructions:
each is classified as wholly additive — `split_operation` returns it as the
blue tuple with a green `None`, it lands unchanged in the blue output of
`split_operations`, and a list made only of impossible instructions splits
without error into `(the list itself, nothing)`. -/
theorem C10_impossible_not_detected_in_split :
    (∀ (apps : Apps) (app : String) (op : Operation), isImpossible op = true →
      split_operation apps app op = .ok ([some op], [none])) ∧
    (∀ (apps : Apps) (app : String) (ops B G : List Operation),
      split_operations apps app ops = .ok (B, G) →
      ∀ op ∈ ops, isImpossible op = true → op ∈ B) ∧
    (∀ (apps : Apps) (app : String) (ops : List Operation),
      (∀ op ∈ ops, isImpossible op = true) →
      split_operations apps app ops = .ok (ops, [])) := by
  refine ⟨split_op_impossible, ?_, ?_⟩
  · intro apps app ops
    induction ops with
    | nil => intro B G h op hop; simp at hop
    | cons o rest ih =>
      intro B G h op hop himp
      obtain ⟨bs, gs, B', G', h1, h2, hB, hG⟩ :=
        split_ops_cons_inv apps app o rest B G h
      cases hop with
      | head =>
        rw [split_op_impossible apps app o himp] at h1
        simp only [Except.ok.injEq, Prod.mk.injEq] at h1
        obtain ⟨hbs, hgs⟩ := h1
        subst hB
        rw [← hbs]
        exact List.mem_append_left _ (by simp)
      | tail _ hmem =>
        subst hB
        exact List.mem_append_right _ (ih B' G' h2 op hmem himp)
  · intro apps app ops hall
    induction ops with
    | nil => rfl
    | cons o rest ih =>
      have h1 := split_op_impossible apps app o (hall o (by simp))
      have h2 := ih (fun op hop => hall op (List.mem_cons_of_mem _ hop))
      have := split_ops_cons_eq apps app o rest [some o] [none] rest [] h1 h2
      simpa using this

/-- Splitting `RenameModel` when the new model resolves: blue is the patched
create (old name as metadata) plus the synthesized `INSERT ... SELECT`,
green is the delete of the old name. -/
theorem renameModel_split_eq (apps : Apps) (app o n : String)
    (model : DjangoModel) (h : get_model_safely apps app n = .ok model) :
    split_operation apps app (.renameModel o n) =
      .ok ([some (.createModelPatched model.name model.fields o),
            some (build_insert_select (model.appLabel ++ "_" ++ strToLower o)
              model.dbTable (build_column_list_from_model model) none)],
           [some (.deleteModel o)]) := by
  rw [show split_operation apps app (.renameModel o n) =
      Except.bind (get_model_safely apps app n) (fun model =>
        Except.ok ([some (Operation.createModelPatched model.name model.fields o),
          some (build_insert_select (model.appLabel ++ "_" ++ strToLower o)
            model.dbTable (build_column_list_from_model model) none)],
          [some (Operation.deleteModel o)])) from rfl]
  rw [h]
  rfl

/-- Splitting `RenameField` when the model and the new field resolve: blue is
the patched add (old name as metadata) plus the synthesized `UPDATE` column
copy, green is the remove of the old field. -/
theorem renameField_split_eq (apps : Apps) (app mn o n : String)
    (model : DjangoModel) (field : DjangoField)
    (h1 : get_model_safely apps app mn = .ok model)
    (h2 : get_field_by_name model n = .ok field) :
    split_operation apps app (.renameField mn o n) =
      .ok ([some (.addFieldPatched (strToLower model.name) n o field true),
            some (build_update_field_copy model.dbTable n o none none)],
           [some (.removeField (strToLower model.name) o)]) := by
  rw [show split_operation apps app (.renameField mn o n) =
      Except.bind (get_model_safely apps app mn) (fun model =>
        Except.bind (get_field_by_name model n) (fun field =>
          Except.ok ([some (Operation.addFieldPatched (strToLower model.name)
              n o field true),
            some (build_update_field_copy model.dbTable n o none none)],
            [some (Operation.removeField (strToLower model.name) o)]))) from rfl]
  rw [h1]
  show Except.bind (get_field_by_name model n) _ = _
  rw [h2]
  rfl

/-- Splitting `RenameIndex` when the model and the new index resolve: blue is
the patched add-index (old name as metadata), green is the remove of the
old index; no data-copy sql. -/
theorem renameIndex_split_eq (apps : Apps) (app mn o n : String)
    (model : DjangoModel) (index : String)
    (h1 : get_model_safely apps app mn = .ok model)
    (h2 : get_index_by_name model n = .ok index) :
    split_operation apps app (.renameIndex mn o n) =
      .ok ([some (.addIndexPatched (strToLower model.name) index o)],
           [some (.removeIndex (strToLower model.name) o)]) := by
  rw [show split_operation apps app (.renameIndex mn o n) =
      Except.bind (get_model_safely apps app mn) (fun model =>
        Except.bind (get_index_by_name model n) (fun index =>
          Except.ok ([some (Operation.addIndexPatched (strToLower model.name)
              index o)],
            [some (Operation.removeIndex (strToLower model.name) o)]))) from rfl]
  rw [h1]
  show Except.bind (get_index_by_name model n) _ = _
  rw [h2]
  rfl

/-- C4: rename-model, rename-field and rename-index splits: blue holds the
create/add variant carrying the old name (plus, for model and field
renames, exactly one data-copy SQL instruction), green holds exactly the
delete/remove of the old name. -/
theorem C4_rename_split_shapes :
    (∀ (apps : Apps) (app o n : String) (model : DjangoModel),
      get_model_safely apps app n = .ok model →
      split_operation apps app (.renameModel o n) =
        .ok ([some (.createModelPatched model.name model.fields o),
              some (build_insert_select (model.appLabel ++ "_" ++ strToLower o)
                model.dbTable (build_column_list_from_model model) none)],
             [some (.deleteModel o)])) ∧
    (∀ (apps : Apps) (app mn o n : String) (model : DjangoModel)
        (field : DjangoField),
      get_model_safely apps app mn = .ok model →
      get_field_by_name model n = .ok field →
      split_operation apps app (.renameField mn o n) =
        .ok ([some (.addFieldPatched (strToLower model.name) n o field true),
              some (build_update_field_copy model.dbTable n o none none)],
             [some (.removeField (strToLower model.name) o)])) ∧
    (∀ (apps : Apps) (app mn o n : String) (model : DjangoModel)
        (index : String),
      get_model_safely apps app mn = .ok model →
      get_index_by_name model n = .ok index →
      split_operation apps app (.renameIndex mn o n) =
        .ok ([some (.addIndexPatched (strToLower model.name) index o)],
             [some (.removeIndex (strToLower model.name) o)])) :=
  ⟨renameModel_split_eq, renameField_split_eq, renameIndex_split_eq⟩

/-- Witness for C4 at concrete model, field and index renames. -/
theorem C4_rename_split_shapes_witness :
    split_operation shopApps "shop" (.renameModel "Customer" "Client") =
      .ok ([some (.createModelPatched "Client" [DjangoField.mk "id" "id"] "Customer"),
            some (.runSQL
              "INSERT INTO \"shop_customer\" (\"id\") SELECT \"id\" FROM \"shop_client\"" "")],
           [some (.deleteModel "Customer")]) ∧
    split_operation crmApps "crm" (.renameField "User" "email" "email_new") =
      .ok ([some (.addFieldPatched "user" "email_new" "email"
              (DjangoField.mk "email_new" "email_new") true),
            some (.runSQL "UPDATE \"crm_user\" SET \"email_new\" = \"email\"" "")],
           [some (.removeField "user" "email")]) ∧
    split_operation crmApps "crm" (.renameIndex "User" "idx_old" "idx_new") =
      .ok ([some (.addIndexPatched "user" "idx_new" "idx_old")],
           [some (.removeIndex "user" "idx_old")]) :=
  ⟨C4_rename_split_shapes.1 shopApps "shop" "Customer" "Client" clientModel
      (by decide),
    C4_rename_split_shapes.2.1 crmApps "crm" "User" "email" "email_new"
      userModel (DjangoField.mk "email_new" "email_new") (by decide) (by decide),
    C4_rename_split_shapes.2.2 crmApps "crm" "User" "idx_old" "idx_new"
      userModel "idx_new" (by decide) (by decide)⟩

/-- C1 counterexample: with zero common columns between the old and the new
model, the rename-model split still succeeds and synthesizes the copy SQL;
no schema-validation error aborts it, even though the validator itself
would report one if it were consulted. -/
theorem C1_counterexample_no_abort_on_disjoint_schemas :
    get_common_columns customerModel disjointClient = [] ∧
    split_operation disjointApps "shop" (.renameModel "Customer" "Client") =
      .ok ([some (.createModelPatched "Client" [DjangoField.mk "b" "b"] "Customer"),
            some (.runSQL
              "INSERT INTO \"shop_customer\" (\"b\") SELECT \"b\" FROM \"shop_client\"" "")],
           [some (.deleteModel "Customer")]) ∧
    check_safe_for_insert_select customerModel disjointClient =
      .error (.schemaValidation "No common columns between Customer and Client") := by
  decide

/-- C1 amended: the data-copy instruction is synthesized by the SQL builder
alone — splitting a rename succeeds whenever the renamed object resolves,
regardless of common columns — while the Schema Validator's
`check_safe_for_insert_select`, which no splitting code invokes, reports
the schema-validation error exactly when zero common columns exist. -/
theorem C1_validator_not_consulted_by_split :
    (∀ src tgt : DjangoModel,
      check_safe_for_insert_select src tgt =
        .error (.schemaValidation
          ("No common columns between " ++ src.name ++ " and " ++ tgt.name)) ↔
      get_common_columns src tgt = []) ∧
    (∀ (apps : Apps) (app o n : String) (model : DjangoModel),
      get_model_safely apps app n = .ok model →
      split_operation apps app (.renameModel o n) =
        .ok ([some (.createModelPatched model.name model.fields o),
              some (build_insert_select (model.appLabel ++ "_" ++ strToLower o)
                model.dbTable (build_column_list_from_model model) none)],
             [some (.deleteModel o)])) ∧
    (∀ (apps : Apps) (app mn o n : String) (model : DjangoModel)
        (field : DjangoField),
      get_model_safely apps app mn = .ok model →
      get_field_by_name model n = .ok field →
      split_operation apps app (.renameField mn o n) =
        .ok ([some (.addFieldPatched (strToLower model.name) n o field true),
              some (build_update_field_copy model.dbTable n o none none)],
             [some (.removeField (strToLower model.name) o)])) := by
  refine ⟨?_, renameModel_split_eq, renameField_split_eq⟩
  intro src tgt
  cases hc : get_common_columns src tgt <;>
    simp [check_safe_for_insert_select, hc]

/-- Witness for the amended C1 at the disjoint-schema fixture. -/
theorem C1_validator_not_consulted_by_split_witness :
    check_safe_for_insert_select customerModel disjointClient =
      .error (.schemaValidation "No common columns between Customer and Client") ∧
    split_operation disjointApps "shop" (.renameModel "Customer" "Client") =
      .ok ([some (.createModelPatched "Client" [DjangoField.mk "b" "b"] "Customer"),
            some (.runSQL
              "INSERT INTO \"shop_customer\" (\"b\") SELECT \"b\" FROM \"shop_client\"" "")],
           [some (.deleteModel "Customer")]) :=
  ⟨(C1_validator_not_consulted_by_split.1 customerModel disjointClient).mpr
      (by decide),
    C1_validator_not_consulted_by_split.2.1 disjointApps "shop" "Customer"
      "Client" disjointClient (by decide)⟩

/-- C2 at the failing input: the synthesized copy for a model rename puts the
old (pre-rename, currently-live) table after `INSERT INTO` and the newly
created table after `FROM`, the reverse of the claimed direction. -/
theorem C2_insert_select_direction_inverted :
    split_operation shopApps "shop" (.renameModel "Customer" "Client") =
      .ok ([some (.createModelPatched "Client" [DjangoField.mk "id" "id"] "Customer"),
            some (.runSQL
              "INSERT INTO \"shop_customer\" (\"id\") SELECT \"id\" FROM \"shop_client\"" "")],
           [some (.deleteModel "Customer")]) ∧
    strStartsWith (sqlOf (build_insert_select "shop_customer" "shop_client" ["id"] none))
      "INSERT INTO \"shop_customer\"" = true ∧
    strEndsWith (sqlOf (build_insert_select "shop_customer" "shop_client" ["id"] none))
      "FROM \"shop_client\"" = true := by
  decide

/-- Membership transport for a split result of shape `([some a], [none])`. -/
theorem stable_single_blue (a : Operation) (bs gs : List (Option Operation))
    (h : (Except.ok ([some a], [none]) : Except BGError SplitPair) = .ok (bs, gs))
    (ha : ∀ (apps2 : Apps) (app2 : String),
      split_operation apps2 app2 a = .ok ([some a], [none])) :
    (∀ x, some x ∈ bs → ∀ (apps2 : Apps) (app2 : String),
      split_operation apps2 app2 x = .ok ([some x], [none])) ∧
    (∀ x, some x ∈ gs → ∀ (apps2 : Apps) (app2 : String),
      split_operation apps2 app2 x = .ok ([none], [some x])) := by
  simp only [Except.ok.injEq, Prod.mk.injEq] at h
  obtain ⟨hb, hg⟩ := h
  rw [← hb, ← hg]
  constructor
  · intro x hx
    simp only [List.mem_singleton, Option.some.injEq] at hx
    subst hx
    exact ha
  · intro x hx
    simp at hx

/-- Membership transport for a split result of shape `([none], [some c])`. -/
theorem stable_single_green (c : Operation) (bs gs : List (Option Operation))
    (h : (Except.ok ([none], [some c]) : Except BGError SplitPair) = .ok (bs, gs))
    (hc : ∀ (apps2 : Apps) (app2 : String),
      split_operation apps2 app2 c = .ok ([none], [some c])) :
    (∀ x, some x ∈ bs → ∀ (apps2 : Apps) (app2 : String),
      split_operation apps2 app2 x = .ok ([some x], [none])) ∧
    (∀ x, some x ∈ gs → ∀ (apps2 : Apps) (app2 : String),
      split_operation apps2 app2 x = .ok ([none], [some x])) := by
  simp only [Except.ok.injEq, Prod.mk.injEq] at h
  obtain ⟨hb, hg⟩ := h
  rw [← hb, ← hg]
  constructor
  · intro x hx
    simp at hx
  · intro x hx
    simp only [List.mem_singleton, Option.some.injEq] at hx
    subst hx
    exact hc

/-- Membership transport for a split result of shape
`([some a, some b], [some c])` (the model/field rename shape). -/
theorem stable_pair_blue (a b c : Operation) (bs gs : List (Option Operation))
    (h : (Except.ok ([some a, some b], [some c]) : Except BGError SplitPair) =
      .ok (bs, gs))
    (ha : ∀ (apps2 : Apps) (app2 : String),
      split_operation apps2 app2 a = .ok ([some a], [none]))
    (hb2 : ∀ (apps2 : Apps) (app2 : String),
      split_operation apps2 app2 b = .ok ([some b], [none]))
    (hc : ∀ (apps2 : Apps) (app2 : String),
      split_operation apps2 app2 c = .ok ([none], [some c])) :
    (∀ x, some x ∈ bs → ∀ (apps2 : Apps) (app2 : String),
      split_operation apps2 app2 x = .ok ([some x], [none])) ∧
    (∀ x, some x ∈ gs → ∀ (apps2 : Apps) (app2 : String),
      split_operation apps2 app2 x = .ok ([none], [some x])) := by
  simp only [Except.ok.injEq, Prod.mk.injEq] at h
  obtain ⟨hb, hg⟩ := h
  rw [← hb, ← hg]
  constructor
  · intro x hx
    simp only [List.mem_cons, List.mem_singleton, Option.some.injEq,
      List.not_mem_nil, or_false] at hx
    rcases hx with hx | hx
    · subst hx; exact ha
    · subst hx; exact hb2
  · intro x hx
    simp only [List.mem_singleton, Option.some.injEq] at hx
    subst hx
    exact hc

/-- Membership transport for a split result of shape `([some a], [some c])`
(the index rename shape). -/
theorem stable_one_one (a c : Operation) (bs gs : List (Option Operation))
    (h : (Except.ok ([some a], [some c]) : Except BGError SplitPair) = .ok (bs, gs))
    (ha : ∀ (apps2 : Apps) (app2 : String),
      split_operation apps2 app2 a = .ok ([some a], [none]))
    (hc : ∀ (apps2 : Apps) (app2 : String),
      split_operation apps2 app2 c = .ok ([none], [some c])) :
    (∀ x, some x ∈ bs → ∀ (apps2 : Apps) (app2 : String),
      split_operation apps2 app2 x = .ok ([some x], [none])) ∧
    (∀ x, some x ∈ gs → ∀ (apps2 : Apps) (app2 : String),
      split_operation apps2 app2 x = .ok ([none], [some x])) := by
  simp only [Except.ok.injEq, Prod.mk.injEq] at h
  obtain ⟨hb, hg⟩ := h
  rw [← hb, ← hg]
  constructor
  · intro x hx
    simp only [List.mem_singleton, Option.some.injEq] at hx
    subst hx
    exact ha
  · intro x hx
    simp only [List.mem_singleton, Option.some.injEq] at hx
    subst hx
    exact hc

/-- Every operation emitted by a successful `split_operation` is stable:
blue members re-split as pure-blue, green members as pure-green, under any
registry. -/
theorem split_members_stable (apps : Apps) (app : String) (op : Operation)
    (bs gs : List (Option Operation))
    (h : split_operation apps app op = .ok (bs, gs)) :
    (∀ x, some x ∈ bs → ∀ (apps2 : Apps) (app2 : String),
      split_operation apps2 app2 x = .ok ([some x], [none])) ∧
    (∀ x, some x ∈ gs → ∀ (apps2 : Apps) (app2 : String),
      split_operation apps2 app2 x = .ok ([none], [some x])) := by
  cases op with
  | createModel n fs => exact stable_single_blue _ bs gs h (fun _ _ => rfl)
  | deleteModel n => exact stable_single_green _ bs gs h (fun _ _ => rfl)
  | renameModel o n =>
    have h' : Except.bind (get_model_safely apps app n) (fun model =>
        Except.ok ([some (Operation.createModelPatched model.name model.fields o),
          some (build_insert_select (model.appLabel ++ "_" ++ strToLower o)
            model.dbTable (build_column_list_from_model model) none)],
          [some (Operation.deleteModel o)])) = .ok (bs, gs) := h
    cases hm : get_model_safely apps app n with
    | error e => rw [hm] at h'; simp [Except.bind] at h'
    | ok model =>
      rw [hm] at h'
      exact stable_pair_blue _ _ _ bs gs h'
        (fun _ _ => rfl) (fun _ _ => rfl) (fun _ _ => rfl)
  | addField mn n => exact stable_single_blue _ bs gs h (fun _ _ => rfl)
  | removeField mn n => exact stable_single_green _ bs gs h (fun _ _ => rfl)
  | renameField mn o n =>
    have h' : Except.bind (get_model_safely apps app mn) (fun model =>
        Except.bind (get_field_by_name model n) (fun field =>
          Except.ok ([some (Operation.addFieldPatched (strToLower model.name)
              n o field true),
            some (build_update_field_copy model.dbTable n o none none)],
            [some (Operation.removeField (strToLower model.name) o)]))) =
        .ok (bs, gs) := h
    cases hm : get_model_safely apps app mn with
    | error e => rw [hm] at h'; simp [Except.bind] at h'
    | ok model =>
      rw [hm] at h'
      have h'' : Except.bind (get_field_by_name model n) (fun field =>
          Except.ok ([some (Operation.addFieldPatched (strToLower model.name)
              n o field true),
            some (build_update_field_copy model.dbTable n o none none)],
            [some (Operation.removeField (strToLower model.name) o)])) =
          .ok (bs, gs) := h'
      cases hf : get_field_by_name model n with
      | error e => rw [hf] at h''; simp [Except.bind] at h''
      | ok field =>
        rw [hf] at h''
        exact stable_pair_blue _ _ _ bs gs h''
          (fun _ _ => rfl) (fun _ _ => rfl) (fun _ _ => rfl)
  | addIndex mn n => exact stable_single_blue _ bs gs h (fun _ _ => rfl)
  | removeIndex mn n => exact stable_single_green _ bs gs h (fun _ _ => rfl)
  | renameIndex mn o n =>
    have h' : Except.bind (get_model_safely apps app mn) (fun model =>
        Except.bind (get_index_by_name model n) (fun index =>
          Except.ok ([some (Operation.addIndexPatched (strToLower model.name)
              index o)],
            [some (Operation.removeIndex (strToLower model.name) o)]))) =
        .ok (bs, gs) := h
    cases hm : get_model_safely apps app mn with
    | error e => rw [hm] at h'; simp [Except.bind] at h'
    | ok model =>
      rw [hm] at h'
      have h'' : Except.bind (get_index_by_name model n) (fun index =>
          Except.ok ([some (Operation.addIndexPatched (strToLower model.name)
              index o)],
            [some (Operation.removeIndex (strToLower model.name) o)])) =
          .ok (bs, gs) := h'
      cases hf : get_index_by_name model n with
      | error e => rw [hf] at h''; simp [Except.bind] at h''
      | ok index =>
        rw [hf] at h''
        exact stable_one_one _ _ bs gs h'' (fun _ _ => rfl) (fun _ _ => rfl)
  | addConstraint mn n => exact stable_single_blue _ bs gs h (fun _ _ => rfl)
  | removeConstraint mn n => exact stable_single_green _ bs gs h (fun _ _ => rfl)
  | alterModelTable n => exact stable_single_blue _ bs gs h (fun _ _ => rfl)
  | alterUniqueTogether n => exact stable_single_blue _ bs gs h (fun _ _ => rfl)
  | alterIndexTogether n => exact stable_single_blue _ bs gs h (fun _ _ => rfl)
  | alterModelOptions n => exact stable_single_blue _ bs gs h (fun _ _ => rfl)
  | alterField mn n => exact stable_single_blue _ bs gs h (fun _ _ => rfl)
  | alterOrderWithRespectTo n => exact stable_single_blue _ bs gs h (fun _ _ => rfl)
  | alterModelManagers n => exact stable_single_blue _ bs gs h (fun _ _ => rfl)
  | runSQL s r => exact stable_single_blue _ bs gs h (fun _ _ => rfl)
  | createModelPatched n fs o => exact stable_single_blue _ bs gs h (fun _ _ => rfl)
  | addFieldPatched mn n o f p => exact stable_single_blue _ bs gs h (fun _ _ => rfl)
  | addIndexPatched mn n o => exact stable_single_blue _ bs gs h (fun _ _ => rfl)

/-- Splitting a list whose members all re-split as pure-blue returns the
list itself as blue and nothing as green. -/
theorem split_ops_all_blue (apps : Apps) (app : String) (ops : List Operation)
    (h : ∀ op ∈ ops, ∀ (apps2 : Apps) (app2 : String),
      split_operation apps2 app2 op = .ok ([some op], [none])) :
    split_operations apps app ops = .ok (ops, []) := by
  induction ops with
  | nil => rfl
  | cons o rest ih =>
    have step := split_ops_cons_eq apps app o rest [some o] [none] rest []
      (h o (by simp) apps app) (ih (fun op hop => h op (by simp [hop])))
    simpa using step

/-- Splitting a list whose members all re-split as pure-green returns
nothing as blue and the list itself as green. -/
theorem split_ops_all_green (apps : Apps) (app : String) (ops : List Operation)
    (h : ∀ op ∈ ops, ∀ (apps2 : Apps) (app2 : String),
      split_operation apps2 app2 op = .ok ([none], [some op])) :
    split_operations apps app ops = .ok ([], ops) := by
  induction ops with
  | nil => rfl
  | cons o rest ih =>
    have step := split_ops_cons_eq apps app o rest [none] [some o] [] rest
      (h o (by simp) apps app) (ih (fun op hop => h op (by simp [hop])))
    simpa using step

/-- Shows `split_operations` distributes over list concatenation. -/
theorem split_ops_append (apps : Apps) (app : String) (xs ys : List Operation)
    (B2 G2 : List Operation)
    (h2 : split_operations apps app ys = .ok (B2, G2)) :
    ∀ B1 G1, split_operations apps app xs = .ok (B1, G1) →
      split_operations apps app (xs ++ ys) = .ok (B1 ++ B2, G1 ++ G2) := by
  induction xs with
  | nil =>
    intro B1 G1 h1
    have h1' : (Except.ok ([], []) : Except BGError (List Operation × List Operation)) =
      .ok (B1, G1) := h1
    simp only [Except.ok.injEq, Prod.mk.injEq] at h1'
    obtain ⟨hB, hG⟩ := h1'
    rw [← hB, ← hG]
    simpa using h2
  | cons o rest ih =>
    intro B1 G1 h1
    obtain ⟨bs, gs, B', G', hsplit, hrest, hB, hG⟩ :=
      split_ops_cons_inv apps app o rest B1 G1 h1
    subst hB; subst hG
    have step := split_ops_cons_eq apps app o (rest ++ ys) bs gs (B' ++ B2)
      (G' ++ G2) hsplit (ih B' G' hrest)
    simpa [List.append_assoc] using step

/-- Every member of a successful `split_operations` blue output re-splits as
pure-blue, every green member as pure-green. -/
theorem split_ops_members (apps : Apps) (app : String) (ops : List Operation) :
    ∀ B G, split_operations apps app ops = .ok (B, G) →
      (∀ x ∈ B, ∀ (apps2 : Apps) (app2 : String),
        split_operation apps2 app2 x = .ok ([some x], [none])) ∧
      (∀ x ∈ G, ∀ (apps2 : Apps) (app2 : String),
        split_operation apps2 app2 x = .ok ([none], [some x])) := by
  induction ops with
  | nil =>
    intro B G h
    have h' : (Except.ok ([], []) : Except BGError (List Operation × List Operation)) =
      .ok (B, G) := h
    simp only [Except.ok.injEq, Prod.mk.injEq] at h'
    obtain ⟨hB, hG⟩ := h'
    rw [← hB, ← hG]
    constructor <;> intro x hx <;> simp at hx
  | cons o rest ih =>
    intro B G h
    obtain ⟨bs, gs, B', G', hsplit, hrest, hB, hG⟩ :=
      split_ops_cons_inv apps app o rest B G h
    subst hB; subst hG
    obtain ⟨ihB, ihG⟩ := ih B' G' hrest
    obtain ⟨sB, sG⟩ := split_members_stable apps app o bs gs hsplit
    constructor
    · intro x hx
      rcases List.mem_append.mp hx with hx | hx
      · obtain ⟨a, ha, hax⟩ := List.mem_filterMap.mp hx
        have hax' : a = some x := hax
        subst hax'
        exact sB x ha
      · exact ihB x hx
    · intro x hx
      rcases List.mem_append.mp hx with hx | hx
      · obtain ⟨a, ha, hax⟩ := List.mem_filterMap.mp hx
        have hax' : a = some x := hax
        subst hax'
        exact sG x ha
      · exact ihG x hx

/-- C9: re-splitting the concatenation of an already-flattened blue and
green pair obtained from non-impossible instructions, and re-merging,
reconstructs exactly the input lists: the blue output is the blue input,
the green output the green input, so the merged result equals `B ++ G`. -/
theorem C9_resplit_is_idempotent (apps : Apps) (app : String)
    (ops B G : List Operation)
    (hno : ∀ op ∈ ops, isImpossible op = false)
    (h : split_operations apps app ops = .ok (B, G)) :
    split_operations apps app (B ++ G) = .ok (B, G) := by
  obtain ⟨hB, hG⟩ := split_ops_members apps app ops B G h
  have h1 : split_operations apps app B = .ok (B, []) :=
    split_ops_all_blue apps app B hB
  have h2 : split_operations apps app G = .ok ([], G) :=
    split_ops_all_green apps app G hG
  have step := split_ops_append apps app B G [] G h2 B [] h1
  simpa using step

/-- Witness for C9: a rename plus a delete, split and re-split. -/
theorem C9_resplit_is_idempotent_witness :
    split_operations shopApps "shop"
      ([.createModelPatched "Client" [DjangoField.mk "id" "id"] "Customer",
        .runSQL "INSERT INTO \"shop_customer\" (\"id\") SELECT \"id\" FROM \"shop_client\"" ""] ++
       [.deleteModel "Customer", .deleteModel "Old"]) =
      .ok ([.createModelPatched "Client" [DjangoField.mk "id" "id"] "Customer",
            .runSQL "INSERT INTO \"shop_customer\" (\"id\") SELECT \"id\" FROM \"shop_client\"" ""],
           [.deleteModel "Customer", .deleteModel "Old"]) :=
  C9_resplit_is_idempotent shopApps "shop"
    [.renameModel "Customer" "Client", .deleteModel "Old"]
    [.createModelPatched "Client" [DjangoField.mk "id" "id"] "Customer",
      .runSQL "INSERT INTO \"shop_customer\" (\"id\") SELECT \"id\" FROM \"shop_client\"" ""]
    [.deleteModel "Customer", .deleteModel "Old"]
    (by decide) (by decide)

/-- C6: dependency rewriting is per-element; already-suffixed names pass
through unchanged; a suffix-free name is rewritten to name+target-suffix
exactly when the candidate is in the graph or on disk and kept otherwise;
and a processed green migration depends exactly on its own blue
counterpart (while blue gets the rewritten source dependencies). -/
theorem C6_dependency_rewriting :
    (∀ (env : MigrationEnv) (d : Dep) (ds : List Dep) (cur : String) (g : Bool),
      fix_dependencies env (d :: ds) cur g =
        fix_dependencies env [d] cur g ++ fix_dependencies env ds cur g) ∧
    (∀ (env : MigrationEnv) (cur : String) (g : Bool) (app name : String),
      (strEndsWith name BLUE_SUFFIX || strEndsWith name GREEN_SUFFIX) = true →
      fix_dependencies env [.ref app name] cur g = [.ref app name]) ∧
    (∀ (env : MigrationEnv) (cur : String) (g : Bool) (app name : String),
      (strEndsWith name BLUE_SUFFIX || strEndsWith name GREEN_SUFFIX) = false →
      (env.graphNodes.contains (app, name ++ target_suffix g) ||
        migration_file_exists env app (name ++ target_suffix g)) = true →
      fix_dependencies env [.ref app name] cur g =
        [.ref app (name ++ target_suffix g)]) ∧
    (∀ (env : MigrationEnv) (cur : String) (g : Bool) (app name : String),
      (strEndsWith name BLUE_SUFFIX || strEndsWith name GREEN_SUFFIX) = false →
      (env.graphNodes.contains (app, name ++ target_suffix g) ||
        migration_file_exists env app (name ++ target_suffix g)) = false →
      fix_dependencies env [.ref app name] cur g = [.ref app name]) ∧
    (∀ (apps : Apps) (env : MigrationEnv) (m blue green : Migration),
      process_migration apps env m = .ok (blue, green) →
      green.dependencies = [.ref m.appLabel (m.name ++ BLUE_SUFFIX)] ∧
      blue.dependencies = fix_dependencies env m.dependencies m.appLabel false) := by
  have hunfold : ∀ (env : MigrationEnv) (g : Bool) (app name : String),
      fix_dependency env g (.ref app name) =
        (if strEndsWith name BLUE_SUFFIX || strEndsWith name GREEN_SUFFIX then
          Dep.ref app name
        else if env.graphNodes.contains (app, name ++ target_suffix g) ||
            migration_file_exists env app (name ++ target_suffix g) then
          Dep.ref app (name ++ target_suffix g)
        else Dep.ref app name) := fun _ _ _ _ => rfl
  refine ⟨?_, ?_, ?_, ?_, ?_⟩
  · intro env d ds cur g
    simp [fix_dependencies]
  · intro env cur g app name h
    show [fix_dependency env g (.ref app name)] = _
    rw [hunfold, h]
    simp
  · intro env cur g app name h1 h2
    show [fix_dependency env g (.ref app name)] = _
    rw [hunfold, h1, h2]
    simp
  · intro env cur g app name h1 h2
    show [fix_dependency env g (.ref app name)] = _
    rw [hunfold, h1, h2]
    simp
  · intro apps env m blue green h
    rw [show process_migration apps env m =
        (if m.operations.any isImpossible then
          .error (.impossibleOperation (detect_impossible_operations m.operations))
        else Except.bind (split_operations apps m.appLabel m.operations)
          (fun pair => Except.ok
            (Migration.mk (m.name ++ BLUE_SUFFIX) m.appLabel pair.1
              (fix_dependencies env m.dependencies m.appLabel false)
              m.replaces m.runBefore m.initial,
             Migration.mk (m.name ++ GREEN_SUFFIX) m.appLabel pair.2
              [Dep.ref m.appLabel (m.name ++ BLUE_SUFFIX)]
              m.replaces m.runBefore m.initial))) from rfl] at h
    cases hany : m.operations.any isImpossible with
    | true => rw [hany] at h; simp at h
    | false =>
      rw [hany] at h
      simp only [Bool.false_eq_true, if_false] at h
      cases hs : split_operations apps m.appLabel m.operations with
      | error e => rw [hs] at h; simp [Except.bind] at h
      | ok pair =>
        rw [hs] at h
        simp only [Except.bind, Except.ok.injEq, Prod.mk.injEq] at h
        obtain ⟨hb, hg⟩ := h
        rw [← hb, ← hg]
        exact ⟨rfl, rfl⟩

/-- Witness for C6: a rewritten dependency (candidate on disk), a suffixed
pass-through, a vanilla pass-through, and the green migration's single
blue dependency, all at concrete inputs. -/
theorem C6_dependency_rewriting_witness :
    fix_dependencies envEx [Dep.ref "appX" "0005_foo"] "bluegreen" false =
      [Dep.ref "appX" "0005_foo_blue"] ∧
    fix_dependencies envEx [Dep.ref "appY" "0001_initial_blue"] "bluegreen" false =
      [Dep.ref "appY" "0001_initial_blue"] ∧
    fix_dependencies envEx [Dep.ref "appY" "0001_initial"] "bluegreen" false =
      [Dep.ref "appY" "0001_initial"] ∧
    (Migration.mk "0005_foo_green" "appX" [] [Dep.ref "appX" "0005_foo_blue"]
      [] [] false).dependencies = [Dep.ref "appX" "0005_foo_blue"] :=
  ⟨C6_dependency_rewriting.2.2.1 envEx "bluegreen" false "appX" "0005_foo"
      (by decide) (by decide),
    C6_dependency_rewriting.2.1 envEx "bluegreen" false "appY" "0001_initial_blue"
      (by decide),
    C6_dependency_rewriting.2.2.2.1 envEx "bluegreen" false "appY" "0001_initial"
      (by decide) (by decide),
    (C6_dependency_rewriting.2.2.2.2 shopApps envEx
      (Migration.mk "0005_foo" "appX" [] [Dep.ref "appY" "0004_bar"] [] [] false)
      (Migration.mk "0005_foo_blue" "appX" [] [Dep.ref "appY" "0004_bar"] [] [] false)
      (Migration.mk "0005_foo_green" "appX" [] [Dep.ref "appX" "0005_foo_blue"]
        [] [] false)
      (by decide)).1⟩

/-- Witness for C10 at an `AlterModelTable` instruction. -/
theorem C10_impossible_not_detected_in_split_witness :
    split_operation shopApps "shop" (.alterModelTable "client") =
      .ok ([some (.alterModelTable "client")], [none]) ∧
    (Operation.alterModelTable "client") ∈ [Operation.alterModelTable "client"] ∧
    split_operations shopApps "shop" [.alterModelTable "client"] =
      .ok ([.alterModelTable "client"], []) :=
  ⟨C10_impossible_not_detected_in_split.1 shopApps "shop" _ rfl,
    C10_impossible_not_detected_in_split.2.1 shopApps "shop"
      [.alterModelTable "client"] [.alterModelTable "client"] [] (by decide)
      (.alterModelTable "client") (by decide) rfl,
    C10_impossible_not_detected_in_split.2.2 shopApps "shop"
      [.alterModelTable "client"] (by intro op hop; simp at hop; subst hop; rfl)⟩


theorem data_append (s t : String) : (s ++ t).data = s.data ++ t.data := rfl

theorem quote_identifier_free (s : String) (h : quoteFree s.data = true) :
    quote_identifier s = "\"" ++ s ++ "\"" := by
  have hstart : strStartsWith s "\"" = false := by
    unfold strStartsWith
    cases hd : s.data with
    | nil => rfl
    | cons c cs =>
      have hc : (c == '"') = false := by
        rw [hd] at h
        simp only [quoteFree, List.all_cons, Bool.and_eq_true, Bool.not_eq_true'] at h
        exact h.1
      have hc2 : ('"' == c) = false := by
        cases hb : ('"' == c) with
        | false => rfl
        | true =>
          exfalso
          have heq : '"' = c := by simpa using hb
          rw [← heq] at hc
          simp at hc
      show List.isPrefixOf ['"'] (c :: cs) = false
      simp [List.isPrefixOf, hc2]
  unfold quote_identifier
  rw [hstart]
  rfl

theorem splitQ_cons_quote (ys : List Char) : splitQ ('"' :: ys) = [] :: splitQ ys := by
  simp [splitQ]

theorem splitQ_cons_free (c : Char) (cs : List Char) (hc : c ≠ '"') :
    splitQ (c :: cs) = match splitQ cs with
      | [] => [[c]]
      | r :: rs => (c :: r) :: rs := by
  simp [splitQ, hc]

theorem splitQ_quoteFree (xs : List Char) (h : ∀ c ∈ xs, c ≠ '"') :
    splitQ xs = [xs] := by
  induction xs with
  | nil => rfl
  | cons c cs ih =>
    have hc : c ≠ '"' := h c (by simp)
    rw [splitQ_cons_free c cs hc, ih (fun d hd => h d (by simp [hd]))]

theorem splitQ_append (xs ys : List Char) (h : ∀ c ∈ xs, c ≠ '"') :
    splitQ (xs ++ '"' :: ys) = xs :: splitQ ys := by
  induction xs with
  | nil =>
    show splitQ ('"' :: ys) = [] :: splitQ ys
    exact splitQ_cons_quote ys
  | cons c cs ih =>
    have hc : c ≠ '"' := h c (by simp)
    have ihcs := ih (fun d hd => h d (by simp [hd]))
    show splitQ (c :: (cs ++ '"' :: ys)) = (c :: cs) :: splitQ ys
    rw [splitQ_cons_free c _ hc, ihcs]

theorem joinChunks_cons (x : List Char) (l : List (List Char)) (h : l ≠ []) :
    joinChunks (x :: l) = x ++ '"' :: joinChunks l := by
  cases l with
  | nil => cases h rfl
  | cons y ys => rfl

theorem splitQ_joinChunks (chunks : List (List Char)) (hne : chunks ≠ [])
    (hfree : ∀ ch ∈ chunks, ∀ c ∈ ch, c ≠ '"') :
    splitQ (joinChunks chunks) = chunks := by
  induction chunks with
  | nil => cases hne rfl
  | cons ch rest ih =>
    cases rest with
    | nil =>
      show splitQ ch = [ch]
      exact splitQ_quoteFree ch (hfree ch (by simp))
    | cons ch2 rest2 =>
      rw [joinChunks_cons ch (ch2 :: rest2) (by simp)]
      rw [splitQ_append ch (joinChunks (ch2 :: rest2)) (hfree ch (by simp))]
      rw [ih (by simp) (fun ch' hch' c hc => hfree ch' (by simp [hch']) c hc)]


theorem quoted_data (s : String) (h : quoteFree s.data = true) :
    (quote_identifier s).data = '"' :: s.data ++ ['"'] := by
  rw [quote_identifier_free s h]
  rfl

theorem joinSep_quoted_data (c : String) (cs : List String)
    (hfree : ∀ x ∈ c :: cs, quoteFree x.data = true) :
    (joinSep ", " ((c :: cs).map quote_identifier)).data =
      '"' :: innerJoin ((c :: cs).map String.data) ++ ['"'] := by
  induction cs generalizing c with
  | nil =>
    show (quote_identifier c).data = _
    rw [quoted_data c (hfree c (by simp))]
    rfl
  | cons c2 cs2 ih =>
    show ((quote_identifier c ++ ", ") ++
      joinSep ", " ((c2 :: cs2).map quote_identifier)).data = _
    rw [data_append, data_append]
    rw [quoted_data c (hfree c (by simp))]
    rw [ih c2 (fun x hx => hfree x (List.mem_cons_of_mem c hx))]
    show _ = '"' :: (c.data ++ '"' :: ", ".data ++ '"' ::
      innerJoin ((c2 :: cs2).map String.data)) ++ ['"']
    simp [List.append_assoc]

theorem altCols_ne_nil (after : List Char) (ds : List (List Char)) :
    altCols after ds ≠ [] := by
  cases ds with
  | nil => simp [altCols]
  | cons d ds2 => cases ds2 <;> simp [altCols]

theorem joinChunks_altCols_append (after : List Char) (d : List Char)
    (ds : List (List Char)) (more : List (List Char)) (hm : more ≠ []) :
    joinChunks (altCols after (d :: ds) ++ more) =
      innerJoin (d :: ds) ++ '"' :: after ++ '"' :: joinChunks more := by
  induction ds generalizing d with
  | nil =>
    show joinChunks (d :: after :: more) = _
    rw [joinChunks_cons d (after :: more) (by simp)]
    rw [joinChunks_cons after more hm]
    simp [innerJoin]
  | cons d2 ds2 ih =>
    show joinChunks (d :: ", ".data :: (altCols after (d2 :: ds2) ++ more)) = _
    rw [joinChunks_cons _ _ (by simp)]
    rw [joinChunks_cons _ _ (by
      intro hx
      exact altCols_ne_nil after (d2 :: ds2) (List.append_eq_nil.mp hx).1)]
    rw [ih d2]
    show d ++ '"' :: (", ".data ++ '"' ::
        (innerJoin (d2 :: ds2) ++ '"' :: after ++ '"' :: joinChunks more)) =
      (d ++ '"' :: ", ".data ++ '"' :: innerJoin (d2 :: ds2)) ++
        '"' :: after ++ '"' :: joinChunks more
    simp [List.append_assoc]

theorem joinChunks_pair_nil (tD : List Char) :
    joinChunks [tD, []] = tD ++ ['"'] := by
  rw [joinChunks_cons tD [[]] (by simp)]
  rfl

theorem joinChunks_expectedInsert (sD tD : List Char) (d : List Char)
    (ds : List (List Char)) :
    joinChunks (expectedInsertChunks sD tD (d :: ds)) =
      "INSERT INTO ".data ++ '"' :: sD ++ '"' :: " (".data ++ '"' ::
        innerJoin (d :: ds) ++ '"' :: ") SELECT ".data ++ '"' ::
        innerJoin (d :: ds) ++ '"' :: " FROM ".data ++ '"' :: tD ++ ['"'] := by
  unfold expectedInsertChunks
  rw [joinChunks_cons _ _ (by simp)]
  rw [joinChunks_cons _ _ (by simp)]
  rw [joinChunks_cons _ _ (by
    intro hx
    exact altCols_ne_nil ") SELECT ".data (d :: ds) (List.append_eq_nil.mp hx).1)]
  rw [joinChunks_altCols_append _ d ds _ (by
    intro hx
    exact altCols_ne_nil " FROM ".data (d :: ds) (List.append_eq_nil.mp hx).1)]
  rw [joinChunks_altCols_append _ d ds [tD, []] (by simp)]
  rw [joinChunks_pair_nil]
  simp [List.append_assoc]

theorem insert_sql_data (s t c : String) (cs : List String)
    (hs : quoteFree s.data = true) (ht : quoteFree t.data = true)
    (hfree : ∀ x ∈ c :: cs, quoteFree x.data = true) :
    (sqlOf (build_insert_select s t (c :: cs) none)).data =
      joinChunks (expectedInsertChunks s.data t.data ((c :: cs).map String.data)) := by
  show ("INSERT INTO " ++ quote_identifier s ++ " (" ++
      joinSep ", " ((c :: cs).map quote_identifier) ++ ") " ++ "SELECT " ++
      joinSep ", " ((c :: cs).map quote_identifier) ++ " FROM " ++
      quote_identifier t).data = _
  simp only [data_append]
  rw [quoted_data s hs, quoted_data t ht, joinSep_quoted_data c cs hfree]
  simp only [List.map_cons]
  rw [joinChunks_expectedInsert]
  simp [List.append_assoc]

theorem update_sql_data (tb nc oc : String)
    (h1 : quoteFree tb.data = true) (h2 : quoteFree nc.data = true)
    (h3 : quoteFree oc.data = true) :
    (sqlOf (build_update_field_copy tb nc oc none none)).data =
      joinChunks (expectedUpdateChunks tb.data nc.data oc.data) := by
  show ("UPDATE " ++ quote_identifier tb ++ " SET " ++ quote_identifier nc ++
      " = " ++ quote_identifier oc).data = _
  simp only [data_append]
  rw [quoted_data tb h1, quoted_data nc h2, quoted_data oc h3]
  simp [expectedUpdateChunks, joinChunks, List.append_assoc]


theorem quoteFree_iff (xs : List Char) :
    quoteFree xs = true ↔ ∀ c ∈ xs, c ≠ '"' := by
  simp [quoteFree, List.all_eq_true]

theorem altCols_mem (after : List Char) (ds : List (List Char)) (ch : List Char)
    (h : ch ∈ altCols after ds) : ch ∈ ds ∨ ch = after ∨ ch = ", ".data := by
  induction ds with
  | nil =>
    simp [altCols] at h
    exact Or.inr (Or.inl h)
  | cons d ds2 ih =>
    cases ds2 with
    | nil =>
      simp only [altCols, List.mem_cons, List.not_mem_nil, or_false] at h
      rcases h with h | h
      · exact Or.inl (by simp [h])
      · exact Or.inr (Or.inl h)
    | cons d2 ds3 =>
      simp only [altCols, List.mem_cons] at h
      rcases h with h | h | h
      · exact Or.inl (by simp [h])
      · exact Or.inr (Or.inr h)
      · rcases ih (by simpa [altCols] using h) with h2 | h2 | h2
        · exact Or.inl (List.mem_cons_of_mem d h2)
        · exact Or.inr (Or.inl h2)
        · exact Or.inr (Or.inr h2)

theorem expectedInsert_free (sD tD : List Char) (colD : List (List Char))
    (hs : ∀ c ∈ sD, c ≠ '"') (ht : ∀ c ∈ tD, c ≠ '"')
    (hcols : ∀ d ∈ colD, ∀ c ∈ d, c ≠ '"') :
    ∀ ch ∈ expectedInsertChunks sD tD colD, ∀ c ∈ ch, c ≠ '"' := by
  intro ch hch
  simp only [expectedInsertChunks, List.mem_cons, List.mem_append] at hch
  have hfix1 : ∀ c ∈ "INSERT INTO ".data, c ≠ '"' := by decide
  have hfix2 : ∀ c ∈ " (".data, c ≠ '"' := by decide
  have hfix3 : ∀ c ∈ ") SELECT ".data, c ≠ '"' := by decide
  have hfix4 : ∀ c ∈ " FROM ".data, c ≠ '"' := by decide
  have hfix5 : ∀ c ∈ ", ".data, c ≠ '"' := by decide
  rcases hch with h | h | h | h | h
  · subst h; exact hfix1
  · subst h; exact hs
  · subst h; exact hfix2
  · rcases altCols_mem _ _ _ h with h2 | h2 | h2
    · exact hcols ch h2
    · subst h2; exact hfix3
    · subst h2; exact hfix5
  · rcases h with h | h
    · rcases altCols_mem _ _ _ h with h2 | h2 | h2
      · exact hcols ch h2
      · subst h2; exact hfix4
      · subst h2; exact hfix5
    · simp only [List.mem_cons, List.not_mem_nil, or_false] at h
      rcases h with h | h
      · subst h; exact ht
      · subst h; intro c hc; simp at hc

/-- C8: injection safety of the SQL builders.  For quote-free identifiers
the quote-chunk decomposition of the output SQL is exactly the expected
interleaving: every identifier appears inside quoting delimiters (the
odd-indexed chunks) and the text outside the quotes is fixed template
text, so no identifier is ever interpolated un-quoted; additionally, on
the specification's concrete example, every occurrence of each identifier
in the SQL text is immediately enclosed in double quotes. -/
theorem C8_identifiers_only_inside_quotes :
    (∀ (s t c : String) (cs : List String),
      quoteFree s.data = true → quoteFree t.data = true →
      (∀ x ∈ c :: cs, quoteFree x.data = true) →
      splitQ (sqlOf (build_insert_select s t (c :: cs) none)).data =
        expectedInsertChunks s.data t.data ((c :: cs).map String.data)) ∧
    (∀ tb nc oc : String,
      quoteFree tb.data = true → quoteFree nc.data = true →
      quoteFree oc.data = true →
      splitQ (sqlOf (build_update_field_copy tb nc oc none none)).data =
        expectedUpdateChunks tb.data nc.data oc.data) ∧
    (onlyQuotedOcc "a-b".data 'x'
        (sqlOf (build_insert_select "a-b" "c d" ["x-1", "y 2"] none)).data = true ∧
      onlyQuotedOcc "c d".data 'x'
        (sqlOf (build_insert_select "a-b" "c d" ["x-1", "y 2"] none)).data = true ∧
      onlyQuotedOcc "x-1".data 'x'
        (sqlOf (build_insert_select "a-b" "c d" ["x-1", "y 2"] none)).data = true ∧
      onlyQuotedOcc "y 2".data 'x'
        (sqlOf (build_insert_select "a-b" "c d" ["x-1", "y 2"] none)).data = true) ∧
    (onlyQuotedOcc "a-b".data 'x'
        (sqlOf (build_update_field_copy "a-b" "c d" "x-1" none none)).data = true ∧
      onlyQuotedOcc "c d".data 'x'
        (sqlOf (build_update_field_copy "a-b" "c d" "x-1" none none)).data = true ∧
      onlyQuotedOcc "x-1".data 'x'
        (sqlOf (build_update_field_copy "a-b" "c d" "x-1" none none)).data = true) := by
  refine ⟨?_, ?_, by decide, by decide⟩
  · intro s t c cs hs ht hfree
    rw [insert_sql_data s t c cs hs ht hfree]
    apply splitQ_joinChunks
    · simp [expectedInsertChunks]
    · apply expectedInsert_free
      · exact (quoteFree_iff s.data).mp hs
      · exact (quoteFree_iff t.data).mp ht
      · intro d hd
        obtain ⟨x, hx, rfl⟩ := List.mem_map.mp hd
        exact (quoteFree_iff x.data).mp (hfree x hx)
  · intro tb nc oc h1 h2 h3
    rw [update_sql_data tb nc oc h1 h2 h3]
    apply splitQ_joinChunks
    · simp [expectedUpdateChunks]
    · intro ch hch
      have hfix1 : ∀ c ∈ "UPDATE ".data, c ≠ '"' := by decide
      have hfix2 : ∀ c ∈ " SET ".data, c ≠ '"' := by decide
      have hfix3 : ∀ c ∈ " = ".data, c ≠ '"' := by decide
      simp only [expectedUpdateChunks, List.mem_cons, List.not_mem_nil,
        or_false] at hch
      rcases hch with h | h | h | h | h | h | h
      · subst h; exact hfix1
      · subst h; exact (quoteFree_iff tb.data).mp h1
      · subst h; exact hfix2
      · subst h; exact (quoteFree_iff nc.data).mp h2
      · subst h; exact hfix3
      · subst h; exact (quoteFree_iff oc.data).mp h3
      · subst h; intro c hc; simp at hc

/-- Witness for C8 at the specification example identifiers. -/
theorem C8_identifiers_only_inside_quotes_witness :
    splitQ (sqlOf (build_insert_select "a-b" "c d" ["x-1", "y 2"] none)).data =
      expectedInsertChunks "a-b".data "c d".data ["x-1".data, "y 2".data] ∧
    splitQ (sqlOf (build_update_field_copy "a-b" "c d" "x-1" none none)).data =
      expectedUpdateChunks "a-b".data "c d".data "x-1".data :=
  ⟨C8_identifiers_only_inside_quotes.1 "a-b" "c d" "x-1" ["y 2"]
      (by decide) (by decide) (by decide),
    C8_identifiers_only_inside_quotes.2.1 "a-b" "c d" "x-1"
      (by decide) (by decide) (by decide)⟩

end BlueGreen
